import Mathlib

/-! # airtag-history-tracker: the per-device duplicate check and log writer

A shallow embedding of the polling loop body of `main` in `src/main.go`
(lines 189-294) together with the parts of the Go standard library the loop
relies on (`time.Unix`, `Time.After`, `Time.Equal`, `Time.Format`,
`time.ParseInLocation` for the layout `2006-01-02 15:04:05`, `strings.Split`,
`strings.ReplaceAll`, `encoding/csv`'s record writer).

Conventions of the embedding

* A Go `string` / `[]byte` is a list of characters (`Str`).  Every string that
  reaches the loop comes from `json.Unmarshal`, which yields valid UTF-8, and
  the bytes 10, 13 and 44 the loop looks for are never part of a multi-byte
  sequence.
* `int64` values are integers; no operation of the loop can overflow on an
  `int64` input (`ms/1000`, `ms%1000` and the second counts derived from them
  stay far inside the 64-bit range), so no wrap-around is modelled.
* `log.Fatal` is the `error` side of `Except Fatal`.
* The three `float64` columns are carried as the text `%f` produces for them.
* Console output (`fmt.Printf`, line 201) is not part of the state.
* Where no usable log is found, the operating system may refuse: `os.Stat` may
  fail with an error other than not-exist and `os.Create` may fail (a display
  name with a `/` whose directory is missing); both end in `log.Fatal`
  (`Env.statErr`, `Env.createErr`). A file the state holds is one the process
  can open, stat, read and append to, and a `Write` with its `Flush` on an open
  log succeeds. The other I/O errors are those the loop provokes itself, a
  `Seek` before the start of the file and a `Read` at its end.
-/

namespace AirTag

/-- Go `string`, as the sequence of its characters. -/
abbrev Str := List Char

namespace time

/-! ## `time.Time` -/

/-- An instant as `time.Time` stores it once the monotonic reading is absent:
seconds since the Unix epoch and nanoseconds within the second. -/
structure Time where
  sec : Int
  nsec : Int
deriving DecidableEq, Repr

/-- The zero value `time.Time{}`: January 1, year 1, 00:00:00 UTC, which is
`unixToInternal = 62135596800` seconds before the Unix epoch. -/
def Time.zero : Time := ⟨-62135596800, 0⟩

/-- Go `time.Unix(sec, nsec)`: normalises `nsec` into `[0, 1e9)`. Go `/` on
signed integers truncates toward zero. -/
def Unix (sec nsec : Int) : Time :=
  if nsec < 0 ∨ nsec ≥ 1000000000 then
    let n := Int.tdiv nsec 1000000000
    let sec := sec + n
    let nsec := nsec - n * 1000000000
    if nsec < 0 then ⟨sec - 1, nsec + 1000000000⟩ else ⟨sec, nsec⟩
  else ⟨sec, nsec⟩

/-- Go `t.After(u)`. -/
def Time.After (t u : Time) : Bool :=
  decide (t.sec > u.sec) || (decide (t.sec = u.sec) && decide (t.nsec > u.nsec))

/-- Go `t.Equal(u)`. -/
def Time.Equal (t u : Time) : Bool :=
  decide (t.sec = u.sec) && decide (t.nsec = u.nsec)

/-- The chronological order on instants: `t` is not after `u`. -/
def Time.le (t u : Time) : Prop :=
  t.sec < u.sec ∨ (t.sec = u.sec ∧ t.nsec ≤ u.nsec)

/-- The strict chronological order on instants. -/
def Time.lt (t u : Time) : Prop :=
  t.sec < u.sec ∨ (t.sec = u.sec ∧ t.nsec < u.nsec)

instance (t u : Time) : Decidable (Time.le t u) := by unfold Time.le; infer_instance
instance (t u : Time) : Decidable (Time.lt t u) := by unfold Time.lt; infer_instance

/-! ## Time zones -/

/-- What `(*Location).lookup` returns for an instant: the offset in seconds
east of UTC in force, and the half-open range of instants `[start, stop)` in
which that offset applies. -/
structure ZoneSpan where
  offset : Int
  start : Int
  stop : Int
deriving DecidableEq, Repr

/-- A `*time.Location`, given by its `lookup` method. -/
structure Location where
  lookup : Int → ZoneSpan

/-- Go `time.UTC`. A fixed zone is in force from `alpha = math.MinInt64` to
`omega = math.MaxInt64`. -/
def UTC : Location := ⟨fun _ => ⟨0, -9223372036854775808, 9223372036854775807⟩⟩

/-- Go `time.FixedZone(_, offset)`. -/
def FixedZone (offset : Int) : Location :=
  ⟨fun _ => ⟨offset, -9223372036854775808, 9223372036854775807⟩⟩

/-! ## Calendar arithmetic of package `time` -/

/-- Go `isLeap(year)`. -/
def isLeap (year : Int) : Bool :=
  decide (year % 4 = 0) && (decide (year % 100 ≠ 0) || decide (year % 400 = 0))

/-- The table `daysBefore`: `daysBefore m` is the number of days in a non-leap
year before month `m + 1` starts. -/
def daysBefore : Nat → Int
  | 0 => 0
  | 1 => 31
  | 2 => 59
  | 3 => 90
  | 4 => 120
  | 5 => 151
  | 6 => 181
  | 7 => 212
  | 8 => 243
  | 9 => 273
  | 10 => 304
  | 11 => 334
  | _ => 365

/-- Go `daysIn(m, year)`. -/
def daysIn (m : Nat) (year : Int) : Int :=
  if m = 2 ∧ isLeap year then 29 else daysBefore m - daysBefore (m - 1)

/-- A calendar date. -/
structure Civil where
  year : Int
  month : Nat
  day : Int
deriving DecidableEq, Repr

/-- First half of `absDate`: the year of a day count and the day within that
year, from 0. Go counts days from the "absolute" year -292277022399, which
starts a 400-year cycle exactly as year 1 does; here `days` is counted from
January 1 of year 1 and the divisions round down, which gives the same year
and day on every day. -/
def yearDay (days : Int) : Int × Int :=
  -- Account for 400 year cycles.
  let n := days / 146097
  let y := 400 * n
  let d := days - 146097 * n
  -- Cut off 100-year cycles; the last one has an extra leap day.
  let n := d / 36524
  let n := n - n / 4
  let y := y + 100 * n
  let d := d - 36524 * n
  -- Cut off 4-year cycles.
  let n := d / 1461
  let y := y + 4 * n
  let d := d - 1461 * n
  -- Cut off years within a 4-year cycle.
  let n := d / 365
  let n := n - n / 4
  let y := y + n
  let d := d - 365 * n
  (y + 1, d)

/-- Second half of `absDate`: month and day of the month of day `yday` of
`year`. -/
def monthDay (year yday : Int) : Civil :=
  if isLeap year ∧ yday = 31 + 29 - 1 then ⟨year, 2, 29⟩
  else
    -- After the leap day, pretend it was not there.
    let day := if isLeap year ∧ yday > 31 + 29 - 1 then yday - 1 else yday
    -- Estimate the month on the assumption that every month has 31 days.
    let month := (day / 31).toNat
    let stop := daysBefore (month + 1)
    if day ≥ stop then ⟨year, month + 2, day - stop + 1⟩
    else ⟨year, month + 1, day - daysBefore month + 1⟩

/-- Go `absDate`: the calendar date of a day count. -/
def absDate (days : Int) : Civil :=
  monthDay (yearDay days).1 (yearDay days).2

/-- Go `daysSinceEpoch(year)`, counted from January 1 of year 1. -/
def daysSinceEpoch (year : Int) : Int :=
  let y := year - 1
  let n := y / 400
  let y := y - 400 * n
  let d := 146097 * n
  let n := y / 100
  let y := y - 100 * n
  let d := d + 36524 * n
  let n := y / 4
  let y := y - 4 * n
  let d := d + 1461 * n
  d + 365 * y

/-- The day count of a calendar date, as `time.Date` computes it. -/
def civilDays (year : Int) (month : Nat) (day : Int) : Int :=
  let d := daysSinceEpoch year + daysBefore (month - 1)
  let d := if isLeap year ∧ month ≥ 3 then d + 1 else d
  d + (day - 1)

/-- Seconds from January 1 of year 1 to the Unix epoch (`unixToInternal`). -/
def unixToInternal : Int := 62135596800

/-- Go `time.Date(year, month, day, hour, min, sec, nsec, loc)` for arguments
already in range (the parser checks them before it calls `Date`). -/
def Date (loc : Location) (year : Int) (month : Nat) (day hour min sec nsec : Int) : Time :=
  let abs := civilDays year month day * 86400 + (hour * 3600 + min * 60 + sec)
  let unix := abs - unixToInternal
  -- Look for the zone offset of the expected time, to adjust to UTC.
  let z := loc.lookup unix
  if z.offset ≠ 0 then
    let utc := unix - z.offset
    let offset := if utc < z.start ∨ utc ≥ z.stop then (loc.lookup utc).offset else z.offset
    ⟨unix - offset, nsec⟩
  else ⟨unix, nsec⟩

/-! ## `Time.Format` with the layout `2006-01-02 15:04:05` -/

/-- The decimal digit character of `u < 10` (`utod` behind `appendInt`). -/
def utod (u : Nat) : Char := Char.ofNat (48 + u)

/-- Go `appendInt(b, x, width)`: the decimal form of `x`, zero-padded to at least
`width` digits, after a minus sign when `x` is negative. The two- and
four-digit fast paths of the library are kept. -/
def appendInt (x : Int) (width : Nat) : Str :=
  let u := x.natAbs
  let sign : Str := if x < 0 then ['-'] else []
  if width = 2 ∧ u < 100 then sign ++ [utod (u / 10), utod (u % 10)]
  else if width = 4 ∧ u < 10000 then
    sign ++ [utod (u / 1000), utod (u / 100 % 10), utod (u / 10 % 10), utod (u % 10)]
  else
    let ds := Nat.toDigits 10 u
    sign ++ List.replicate (width - ds.length) '0' ++ ds

/-- Go `t.Format("2006-01-02 15:04:05")` for a `t` whose location is `loc`: the
calendar date and clock time of `t` in `loc`, at one-second resolution. -/
def Format (loc : Location) (t : Time) : Str :=
  let abs := t.sec + (loc.lookup t.sec).offset + unixToInternal
  let c := absDate (abs / 86400)
  let s := abs % 86400
  appendInt c.year 4 ++ ['-'] ++ appendInt c.month 2 ++ ['-'] ++ appendInt c.day 2 ++ [' '] ++
    appendInt (s / 3600) 2 ++ [':'] ++ appendInt (s % 3600 / 60) 2 ++ [':'] ++ appendInt (s % 60) 2

/-! ## `time.ParseInLocation` with the layout `2006-01-02 15:04:05` -/

/-- Whether `c` is an ASCII decimal digit. -/
def isDigit (c : Char) : Bool := decide (48 ≤ c.toNat) && decide (c.toNat ≤ 57)

/-- The value of a decimal digit character. -/
def digitVal (c : Char) : Int := (c.toNat : Int) - 48

/-- Go `getnum(s, fixed)`: the leading one- or two-digit number of `s` and what
follows it; with `fixed`, exactly two digits are required. -/
def getnum : Str → Bool → Option (Int × Str)
  | c0 :: c1 :: rest, fixed =>
    if isDigit c0 then
      if isDigit c1 then some (digitVal c0 * 10 + digitVal c1, rest)
      else if fixed then none else some (digitVal c0, c1 :: rest)
    else none
  | [c0], fixed => if isDigit c0 ∧ fixed = false then some (digitVal c0, []) else none
  | [], _ => none

/-- The `stdLongYear` step: the first four characters, which `atoi` accepts
only when all four are digits. -/
def getYear : Str → Option (Int × Str)
  | c0 :: c1 :: c2 :: c3 :: rest =>
    if isDigit c0 ∧ isDigit c1 ∧ isDigit c2 ∧ isDigit c3 then
      some (digitVal c0 * 1000 + digitVal c1 * 100 + digitVal c2 * 10 + digitVal c3, rest)
    else none
  | _ => none

/-- Go `skip(value, prefix)` for a one-character literal `prefix` other than a space. -/
def skipChar (c : Char) : Str → Option Str
  | v :: rest => if v = c then some rest else none
  | [] => none

/-- Go `skip(value, " ")`: a space in the layout matches any run of spaces of
the value; a value that starts with another character is rejected. -/
def skipSpace : Str → Option Str
  | [] => some []
  | v :: rest => if v = ' ' then some (rest.dropWhile (fun c => c = ' ')) else none

/-- The value of a run of decimal digits (`atoi` without a sign). -/
def digitsVal (ds : Str) : Int := ds.foldl (fun acc c => acc * 10 + digitVal c) 0

/-- The fractional-second special case after the seconds field: when the
value goes on with a comma or period and a digit, the digits that follow are
read as nanoseconds (at most nine of them count) and consumed. -/
def getFraction (value : Str) : Int × Str :=
  match value with
  | p :: d :: rest =>
    if (p = '.' ∨ p = ',') ∧ isDigit d then
      let ds := d :: rest.takeWhile isDigit
      let kept := ds.take 9
      (digitsVal kept * 10 ^ (9 - kept.length), rest.dropWhile isDigit)
    else (0, value)
  | _ => (0, value)

/-- A numeric field of the layout read by `getnum`, rejected when outside
`[lo, hi]` (the range checks `month <= 0 || 12 < month`, `hour < 0 || 24 <= hour`,
`min < 0 || 60 <= min`, `sec < 0 || 60 <= sec`). -/
def getField (value : Str) ( fixed : Bool) (lo hi : Int) : Option (Int × Str) :=
  match getnum value fixed with
  | none => none
  | some (n, rest) => if n < lo ∨ hi < n then none else some (n, rest)

/-- The date part `2006-01-02` of the layout: year, month and day, and the
rest of the value. The day is validated only once parsing is complete. -/
def parseDate (value : Str) : Option (Int × Int × Int × Str) :=
  match getYear value with
  | none => none
  | some (year, value) =>
    match skipChar '-' value with
    | none => none
    | some value =>
      match getField value true 1 12 with
      | none => none
      | some (month, value) =>
        match skipChar '-' value with
        | none => none
        | some value =>
          match getnum value true with
          | none => none
          | some (day, value) => some (year, month, day, value)

/-- The clock part `15:04:05` of the layout: hour, minute, second and the
nanoseconds of an optional fraction, and the rest of the value. -/
def parseClock (value : Str) : Option (Int × Int × Int × Int × Str) :=
  match getField value false 0 23 with
  | none => none
  | some (hour, value) =>
    match skipChar ':' value with
    | none => none
    | some value =>
      match getField value true 0 59 with
      | none => none
      | some (min, value) =>
        match skipChar ':' value with
        | none => none
        | some value =>
          match getField value true 0 59 with
          | none => none
          | some (sec, value) =>
            let (nsec, value) := getFraction value
            some (hour, min, sec, nsec, value)

/-- Go `time.ParseInLocation("2006-01-02 15:04:05", value, loc)`; `none` stands
for a non-nil error. Text left over once the layout is exhausted is an error,
and so is a day the month does not have. -/
def ParseInLocation (loc : Location) (value : Str) : Option Time :=
  match parseDate value with
  | none => none
  | some (year, month, day, value) =>
    match skipSpace value with
    | none => none
    | some value =>
      match parseClock value with
      | none => none
      | some (hour, min, sec, nsec, value) =>
        if value ≠ [] then none
        else if day < 1 ∨ day > daysIn month.toNat year then none
        else some (Date loc year month.toNat day hour min sec nsec)

end time

/-! ## The decoded snapshot (`Device` and the structs it embeds)

Only the fields the loop reads are kept. -/

/-- The fields of `Location` the loop reads. `TimeStamp` is the fix's time in
milliseconds since the Unix epoch; the three coordinates are carried as their
`%f` text. -/
structure Location where
  TimeStamp : Int
  Latitude : Str
  Longitude : Str
  HorizontalAccuracy : Str

/-- The fields of `Address` the loop reads. -/
structure Address where
  StreetAddress : Str
  StreetName : Str
  MapItemFullAddress : Str
  Locality : Str
  Country : Str

/-- The fields of `Device` the loop reads. -/
structure Device where
  Identifier : Str
  Address : Address
  Location : Location
  Name : Str

/-! ## Strings and CSV records -/

/-- Go `strings.ToLower`, rune by rune, over the rune mapping `unicode.ToLower`. -/
def ToLower (lower : Char → Char) (s : Str) : Str := s.map lower

/-- Go `strings.Split(s, ",")`: always at least one field. -/
def Split : Str → List Str
  | [] => [[]]
  | c :: cs =>
    match Split cs with
    | [] => if c = ',' then [[], []] else [[c]]
    | f :: fs => if c = ',' then [] :: f :: fs else (c :: f) :: fs

/-- The log's file name for a display name (lines 205-206): `name` followed
by `.csv`, every space replaced by an underscore and every right single
quotation mark removed. -/
def logFileName (name : Str) : Str :=
  ((name ++ ".csv".toList).map (fun c => if c = ' ' then '_' else c)).filter
    (fun c => c ≠ Char.ofNat 0x2019)

/-- Go `unicode.IsSpace`. -/
def isSpace (c : Char) : Bool :=
  let n := c.toNat
  decide (n = 9 ∨ n = 10 ∨ n = 11 ∨ n = 12 ∨ n = 13 ∨ n = 32 ∨ n = 0x85 ∨ n = 0xA0 ∨
    n = 0x1680 ∨ (0x2000 ≤ n ∧ n ≤ 0x200a) ∨ n = 0x2028 ∨ n = 0x2029 ∨ n = 0x202f ∨
    n = 0x205f ∨ n = 0x3000)

/-- Go `(*csv.Writer).fieldNeedsQuotes` with the comma as delimiter. -/
def fieldNeedsQuotes (field : Str) : Bool :=
  match field with
  | [] => false
  | c :: _ =>
    decide (field = ['\\', '.']) ||
      field.any (fun c => c = '\n' || c = '\r' || c = '"' || c = ',') || isSpace c

/-- One field as `(*csv.Writer).Write` emits it (`UseCRLF` is false): as it
is, or between double quotes with every double quote doubled. -/
def csvField (field : Str) : Str :=
  if fieldNeedsQuotes field then
    ['"'] ++ (field.map (fun c => if c = '"' then ['"', '"'] else [c])).flatten ++ ['"']
  else field

/-- The bytes `(*csv.Writer).Write(record)` emits: the fields separated by
commas, ended by a line feed. -/
def csvRecord (record : List Str) : Str :=
  (record.map csvField).intersperse [','] |>.flatten |>.append ['\n']

/-- The header row (line 277). -/
def header : List Str :=
  ["time".toList, "latitude".toList, "longitude".toList, "horizontalAccuracy".toList,
   "street".toList, "number".toList, "city".toList, "country".toList]

/-! ## State of the polling loop -/

/-- Why the process ended in `log.Fatal`. -/
inductive Fatal where
  | stat
  | create
  | seek
  | read
  | parse
deriving DecidableEq, Repr

/-- An open `*os.File` with its `csv.Writer` (one entry of `fileHandles` and
`writers`): the path it was opened on, whether it was opened with `O_APPEND`
(an existing log) or by `os.Create`, and the file offset, in bytes, of a handle
that is not in append mode. -/
structure Handle where
  path : Str
  append : Bool
  offset : Nat
deriving DecidableEq, Repr

/-- The maps `lastUpdate` and `writers` (with `fileHandles`, which has the
same keys) of `main`, and the files of the data directory by full path: `some`
is the content of a file that exists and that the process can open, read and
append to; `none` is a path at which `os.Stat` finds no such file. -/
structure State where
  lastUpdate : Str → Option time.Time
  writers : Str → Option Handle
  fs : Str → Option Str

/-- What the loop reads from its environment: the configured device name
`viper.GetString("device")`, the rune mapping `unicode.ToLower`, the local
time zone (`time.Local`, also `time.Now().Location()`),
`filepath.Join(dataDir, ·)`, and what the operating system answers at a path
that holds no file: `statErr` when `os.Stat` fails with an error other than
not-exist (line 220), `createErr` when `os.Create` fails (line 216). -/
structure Env where
  device : Str
  lower : Char → Char
  loc : time.Location
  join : Str → Str
  statErr : Str → Bool
  createErr : Str → Bool

/-- Map update `m[k] = v`. -/
def setKey {α : Type} (m : Str → Option α) (k : Str) (v : α) : Str → Option α :=
  fun x => if x = k then some v else m x

/-- The number of bytes a string takes in a file (UTF-8). -/
def utf8Len (s : Str) : Nat := (s.map Char.utf8Size).sum

/-- The text in the first `n` bytes of a file: the characters that end at or
before byte `n`. -/
def takeBytes : Nat → Str → Str
  | _, [] => []
  | n, c :: cs => if c.utf8Size ≤ n then c :: takeBytes (n - c.utf8Size) cs else []

/-- The text of a file from byte `n` on. A character that byte `n` cuts
through is dropped: what is left of it is no text. -/
def dropBytes : Nat → Str → Str
  | _, [] => []
  | n, c :: cs =>
    if n = 0 then c :: cs
    else if c.utf8Size ≤ n then dropBytes (n - c.utf8Size) cs else cs

/-- A `Write` through a handle: at the end of the file in append mode, else at
the byte offset of the handle, over what the file holds there (bytes past the
end of the file read as zero). -/
def writeAt (h : Handle) (content data : Str) : Str :=
  if h.append then content ++ data
  else
    takeBytes h.offset content ++ List.replicate (h.offset - utf8Len content) (Char.ofNat 0) ++
      data ++ dropBytes (h.offset + utf8Len data) content

/-- The buffered records reach the file of writer `id` on `w.Flush()`. -/
def flush (st : State) (id : Str) (h : Handle) (data : Str) : State :=
  let content := (st.fs h.path).getD []
  { st with
    fs := setKey st.fs h.path (writeAt h content data)
    writers := setKey st.writers id { h with offset := h.offset + utf8Len data } }

/-! ## The loop body -/

/-- The backward scan for the last line (lines 236-259). `pos` is the file
position `filesize + cursor` on entry to an iteration and `line` what has been
collected; `Seek` fails on a negative position and `Read` at end of file. -/
def lastLineLoop (data : Str) : Nat → Str → Except Fatal Str
  | 0, _ => .error .seek
  | pos + 1, line =>
    let cursor : Int := (pos : Int) - data.length
    match data.get? pos with
    | none => .error .read
    | some char =>
      if cursor ≠ -1 ∧ (char.toNat = 10 ∨ char.toNat = 13) then .ok line
      else
        let line := char :: line
        if cursor = -(data.length : Int) then .ok line else lastLineLoop data pos line

/-- The last line of an existing log (lines 229-259). -/
def lastLine (data : Str) : Except Fatal Str := lastLineLoop data data.length []

/-- The event time of a fix (line 195); Go `/` and `%` truncate toward zero. -/
def eventTime (d : Device) : time.Time :=
  time.Unix (Int.tdiv d.Location.TimeStamp 1000) (Int.tmod d.Location.TimeStamp 1000)

/-- The device-name filter (lines 190-193): whether the fix is dropped. -/
def filtered (env : Env) (d : Device) : Bool :=
  let rd := ToLower env.lower env.device
  decide (rd ≠ []) && decide (ToLower env.lower d.Name ≠ rd)

/-- The in-memory duplicate check (line 196),
`ok && lu.After(ts) || lu.Equal(ts)`, where `lu` is the zero `Time` when the
map has no entry: whether the fix is dropped. -/
def duplicate (st : State) (d : Device) : Bool :=
  let ts := eventTime d
  match st.lastUpdate d.Identifier with
  | some lu => (true && lu.After ts) || lu.Equal ts
  | none => (false && time.Time.zero.After ts) || time.Time.zero.Equal ts

/-- The row written for a fix (lines 280-289). -/
def row (env : Env) (d : Device) : List Str :=
  [time.Format env.loc (eventTime d), d.Location.Latitude, d.Location.Longitude,
   d.Location.HorizontalAccuracy, d.Address.StreetName, d.Address.StreetAddress,
   d.Address.Locality, d.Address.Country]

/-- A read of `lastUpdate[id]`: the zero `Time` when the map has no entry. -/
def lastUpdateOf (st : State) (id : Str) : time.Time :=
  (st.lastUpdate id).getD time.Time.zero

/-- First encounter of an entity whose log exists (lines 223-271), entered
with `lastUpdate[id]` already set to the fix's time: recover the last recorded
time from the last line. The result is the state and whether the loop goes on
to write the row (`false` is the `continue` of line 269). -/
def resume (env : Env) (st : State) (d : Device) (data : Str) : Except Fatal (State × Bool) :=
  match lastLine data with
  | .error e => .error e
  | .ok line =>
    if line.length > 0 then
      match Split line with
      | [] => .ok (st, !(lastUpdateOf st d.Identifier).Equal (eventTime d))
      | first :: _ =>
        match time.ParseInLocation env.loc first with
        | none => .error .parse
        | some lu =>
          let st := { st with lastUpdate := setKey st.lastUpdate d.Identifier lu }
          .ok (st, !(lastUpdateOf st d.Identifier).Equal (eventTime d))
    else .ok (st, true)

/-- The append for one fix that passed the filter and the duplicate check
(lines 199-293): set `lastUpdate[id]`, open the writer on first encounter, write
the row and flush. -/
def write (env : Env) (st : State) (d : Device) : Except Fatal State :=
  let st := { st with lastUpdate := setKey st.lastUpdate d.Identifier (eventTime d) }
  match st.writers d.Identifier with
  | some w => .ok (flush st d.Identifier w (csvRecord (row env d)))
  | none =>
    let fullPath := env.join (logFileName d.Name)
    match st.fs fullPath with
    | none =>
      if env.statErr fullPath then .error .stat
      else if env.createErr fullPath then .error .create
      else
        -- os.Create succeeded: the header, then the row
        let st := { st with fs := setKey st.fs fullPath [] }
        .ok (flush st d.Identifier ⟨fullPath, false, 0⟩
          (csvRecord header ++ csvRecord (row env d)))
    | some data =>
      match resume env st d data with
      | .error e => .error e
      | .ok (st, false) => .ok st
      | .ok (st, true) => .ok (flush st d.Identifier ⟨fullPath, true, 0⟩ (csvRecord (row env d)))

/-- The Writer for one fix that passed the filter (lines 195-293): the
duplicate check, then the append. -/
def writer (env : Env) (st : State) (d : Device) : Except Fatal State :=
  if duplicate st d then .ok st else write env st d

/-- One iteration of `for _, d := range devices` (lines 189-294). -/
def processDevice (env : Env) (st : State) (d : Device) : Except Fatal State :=
  if filtered env d then .ok st else writer env st d

/-- The loop over a decoded snapshot (one poll). -/
def poll (env : Env) : State → List Device → Except Fatal State
  | st, [] => .ok st
  | st, d :: ds =>
    match processDevice env st d with
    | .error e => .error e
    | .ok st => poll env st ds

/-- The state of a process that has just started: both maps empty. -/
def start (fs : Str → Option Str) : State := ⟨fun _ => none, fun _ => none, fs⟩

/-- The content of the file at `path` after a run, if the run did not end in
`log.Fatal` and the file exists. -/
def fileAfter (r : Except Fatal State) (path : Str) : Option Str :=
  match r with
  | .ok st => st.fs path
  | .error _ => none

/-- The entry `lastUpdate[id]` after a run that did not end in `log.Fatal`. -/
def lastUpdateAfter (r : Except Fatal State) (id : Str) : Option time.Time :=
  match r with
  | .ok st => st.lastUpdate id
  | .error _ => none

/-- The error a run ended with, if it did. -/
def fatalOf (r : Except Fatal State) : Option Fatal :=
  match r with
  | .ok _ => none
  | .error e => some e

/-- The fixes of a snapshot handed to the Writer one after the other, with no
filter in front. -/
def deliver (env : Env) : State → List Device → Except Fatal State
  | st, [] => .ok st
  | st, d :: ds =>
    match writer env st d with
    | .error e => .error e
    | .ok st => deliver env st ds

/-- An environment in UTC with the data directory `AirTag_History_Data`, in
which `os.Stat` and `os.Create` do not fail; the rune mapping is
`unicode.ToLower` on ASCII. -/
def envUTC (device : Str) : Env :=
  ⟨device, Char.toLower, time.UTC, fun f => "AirTag_History_Data/".toList ++ f,
    fun _ => false, fun _ => false⟩

/-- The environment `envUTC []` with a data directory that has no
subdirectory: `os.Create` fails on a path with a `/` after the data directory. -/
def envFlat : Env :=
  ⟨[], Char.toLower, time.UTC, fun f => "AirTag_History_Data/".toList ++ f,
    fun _ => false, fun p => (p.drop 20).any (fun c => c = '/')⟩

/-- A zone that falls back by an hour at Unix second 1000: two hours east of
UTC before it, one hour east from then on. -/
def fallBack : time.Location :=
  ⟨fun s => if s < 1000 then ⟨7200, -9223372036854775808, 1000⟩
    else ⟨3600, 1000, 9223372036854775807⟩⟩

/-- The environment `envUTC []` moved to the zone `fallBack`. -/
def envFallBack : Env :=
  ⟨[], Char.toLower, fallBack, fun f => "AirTag_History_Data/".toList ++ f,
    fun _ => false, fun _ => false⟩

/-- A fix of entity `id` named `name` at `ms` milliseconds, at latitude 1 and
longitude 2. -/
def fixOf (id name : Str) (ms : Int) : Device :=
  ⟨id, ⟨"12".toList, "Main St".toList, "12 Main St, Town".toList, "Town".toList, "NL".toList⟩,
    ⟨ms, "1.000000".toList, "2.000000".toList, "5.000000".toList⟩, name⟩

/-- The path of the log of the entity named `Keys`. -/
def keysPath : Str := "AirTag_History_Data/Keys.csv".toList

/-- A data directory that holds no file. -/
def noFiles : Str → Option Str := fun _ => none

/-- A data directory that holds the log of `Keys` with the given content. -/
def keysLog (content : Str) : Str → Option Str :=
  fun p => if p = keysPath then some content else none

/-! ## Timestamps in the form `YYYY-MM-DD HH:MM:SS` -/

/-- The wall-clock time a `time` column shows, as a count of seconds: the text
read by the parser of the layout with no zone offset applied. -/
def wallClock (text : Str) : Option Int :=
  (time.ParseInLocation time.UTC text).map (fun t => t.sec)

/-- Two decimal digits. -/
def dec2 (n : Nat) : Str := [time.utod (n / 10), time.utod (n % 10)]

/-- Four decimal digits. -/
def dec4 (n : Nat) : Str :=
  [time.utod (n / 1000), time.utod (n / 100 % 10), time.utod (n / 10 % 10), time.utod (n % 10)]

/-- The text `YYYY-MM-DD HH:MM:SS` of a date and a time of day. -/
def stamp (y mo d h mi s : Nat) : Str :=
  dec4 y ++ ('-' :: (dec2 mo ++ ('-' :: (dec2 d ++ (' ' :: (dec2 h ++ (':' :: (dec2 mi ++
    (':' :: dec2 s)))))))))

/-- The numbers that make up a timestamp: a four-digit year, a month, a day
that month has in that year, and a time of day. -/
def validStamp (y mo d h mi s : Nat) : Prop :=
  y ≤ 9999 ∧ 1 ≤ mo ∧ mo ≤ 12 ∧ 1 ≤ d ∧ (d : Int) ≤ time.daysIn mo y ∧ h ≤ 23 ∧ mi ≤ 59 ∧ s ≤ 59

instance (y mo d h mi s : Nat) : Decidable (validStamp y mo d h mi s) := by
  unfold validStamp; infer_instance

/-! # Theorems -/

set_option maxRecDepth 100000

namespace time

/-! ## Calendar lemmas -/

theorem isLeap_iff (year : Int) :
    isLeap year = true ↔ year % 4 = 0 ∧ (year % 100 ≠ 0 ∨ year % 400 = 0) := by
  simp [isLeap]

/-- The cycle counts behind `yearDay`. -/
theorem yearDay_decomp (days : Int) :
    ∃ a b c e d : Int, 0 ≤ b ∧ b ≤ 3 ∧ 0 ≤ c ∧ c ≤ 24 ∧ 0 ≤ e ∧ e ≤ 3 ∧ 0 ≤ d ∧
      (d ≤ 364 ∨ (d = 365 ∧ e = 3 ∧ (c ≤ 23 ∨ b = 3))) ∧
      days = 146097 * a + 36524 * b + 1461 * c + 365 * e + d ∧
      yearDay days = (400 * a + 100 * b + 4 * c + e + 1, d) := by
  unfold yearDay
  simp only []
  obtain ⟨a, ha⟩ : ∃ a, days / 146097 = a := ⟨_, rfl⟩
  rw [ha]
  have ha2 : 146097 * a ≤ days ∧ days < 146097 * a + 146097 := by omega
  clear ha
  obtain ⟨b, hb⟩ : ∃ b, (days - 146097 * a) / 36524 = b := ⟨_, rfl⟩
  rw [hb]
  have hb2 : 36524 * b ≤ days - 146097 * a ∧ days - 146097 * a < 36524 * b + 36524 := by omega
  clear hb
  have hb3 : b = 0 ∨ b = 1 ∨ b = 2 ∨ b = 3 ∨ b = 4 := by omega
  obtain ⟨n, hn, hn2⟩ : ∃ n, b - b / 4 = n ∧ ((b ≤ 3 ∧ n = b) ∨ (b = 4 ∧ n = 3)) := ⟨_, rfl, by omega⟩
  rw [hn]
  clear hn
  obtain ⟨c, hc⟩ : ∃ c, (days - 146097 * a - 36524 * n) / 1461 = c := ⟨_, rfl⟩
  rw [hc]
  have hc2 : 1461 * c ≤ days - 146097 * a - 36524 * n ∧
      days - 146097 * a - 36524 * n < 1461 * c + 1461 := by omega
  clear hc
  obtain ⟨e, he⟩ : ∃ e, (days - 146097 * a - 36524 * n - 1461 * c) / 365 = e := ⟨_, rfl⟩
  rw [he]
  have he2 : 365 * e ≤ days - 146097 * a - 36524 * n - 1461 * c ∧
      days - 146097 * a - 36524 * n - 1461 * c < 365 * e + 365 := by omega
  clear he
  have he3 : e = 0 ∨ e = 1 ∨ e = 2 ∨ e = 3 ∨ e = 4 := by omega
  obtain ⟨m, hm, hm2⟩ : ∃ m, e - e / 4 = m ∧ ((e ≤ 3 ∧ m = e) ∨ (e = 4 ∧ m = 3)) := ⟨_, rfl, by omega⟩
  rw [hm]
  clear hm
  refine ⟨a, n, c, m, days - 146097 * a - 36524 * n - 1461 * c - 365 * m, ?_, ?_, ?_, ?_, ?_, ?_, ?_,
    ?_, ?_, ?_⟩
  all_goals first | rfl | omega

theorem yearDay_spec (days : Int) :
    0 ≤ (yearDay days).2 ∧
    (yearDay days).2 < 365 + (if isLeap (yearDay days).1 then 1 else 0) ∧
    daysSinceEpoch (yearDay days).1 + (yearDay days).2 = days ∧
    (-366 ≤ days → 0 ≤ (yearDay days).1) ∧ (days ≤ 3652058 → (yearDay days).1 ≤ 9999) := by
  obtain ⟨a, b, c, e, d, hb0, hb3, hc0, hc24, he0, he3, hd0, hd, hdays, hyd⟩ := yearDay_decomp days
  rw [hyd]
  simp only []
  have hleap := isLeap_iff (400 * a + 100 * b + 4 * c + e + 1)
  have hse : daysSinceEpoch (400 * a + 100 * b + 4 * c + e + 1) =
      146097 * a + 36524 * b + 1461 * c + 365 * e := by
    unfold daysSinceEpoch
    simp only []
    have h1 : (400 * a + 100 * b + 4 * c + e + 1 - 1) / 400 = a := by omega
    rw [h1]
    have h2 : (400 * a + 100 * b + 4 * c + e + 1 - 1 - 400 * a) / 100 = b := by omega
    rw [h2]
    have h3 : (400 * a + 100 * b + 4 * c + e + 1 - 1 - 400 * a - 100 * b) / 4 = c := by omega
    rw [h3]
    omega
  rw [hse]
  refine ⟨hd0, ?_, by omega, by omega, by omega⟩
  by_cases hl : isLeap (400 * a + 100 * b + 4 * c + e + 1) = true
  · simp only [hl, if_true]
    omega
  · have h : ¬ ((400 * a + 100 * b + 4 * c + e + 1) % 4 = 0 ∧
        ((400 * a + 100 * b + 4 * c + e + 1) % 100 ≠ 0 ∨
          (400 * a + 100 * b + 4 * c + e + 1) % 400 = 0)) := fun h => hl (hleap.mpr h)
    simp only [hl]
    omega

theorem monthEstimate_spec (year day : Int) (h0 : 0 ≤ day) (h1 : day < 365) :
    ∃ c : Civil,
      (if day ≥ daysBefore ((day / 31).toNat + 1) then
        (⟨year, (day / 31).toNat + 2, day - daysBefore ((day / 31).toNat + 1) + 1⟩ : Civil)
       else ⟨year, (day / 31).toNat + 1, day - daysBefore (day / 31).toNat + 1⟩) = c ∧
      c.year = year ∧ 1 ≤ c.month ∧ c.month ≤ 12 ∧ 1 ≤ c.day ∧
      c.day ≤ daysBefore c.month - daysBefore (c.month - 1) ∧
      daysBefore (c.month - 1) + (c.day - 1) = day ∧ (c.month ≤ 2 ↔ day < 59) ∧
      (c.month = 2 → c.day ≤ 28) := by
  obtain ⟨k, hk⟩ : ∃ k : Nat, day / 31 = (k : Int) := ⟨(day / 31).toNat, by omega⟩
  have hk11 : k ≤ 11 := by omega
  rw [hk, Int.toNat_ofNat]
  refine ⟨_, rfl, ?_⟩
  interval_cases k <;> simp only [daysBefore] <;> split_ifs <;> simp <;> omega

theorem monthDay_spec (year yday : Int) (h0 : 0 ≤ yday)
    (h1 : yday < 365 + (if isLeap year then 1 else 0)) :
    (monthDay year yday).year = year ∧ 1 ≤ (monthDay year yday).month ∧
      (monthDay year yday).month ≤ 12 ∧ 1 ≤ (monthDay year yday).day ∧
      (monthDay year yday).day ≤ daysIn (monthDay year yday).month year ∧
      civilDays year (monthDay year yday).month (monthDay year yday).day =
        daysSinceEpoch year + yday := by
  unfold monthDay
  by_cases hl : isLeap year = true
  · simp only [hl, if_true, true_and] at h1 ⊢
    by_cases h59 : yday = 31 + 29 - 1
    · simp only [h59, if_true]
      simp [daysIn, civilDays, daysBefore, hl]
      omega
    · simp only [h59, if_false]
      by_cases hgt : yday > 31 + 29 - 1
      · simp only [hgt, if_true]
        obtain ⟨c, hc, hy, hm1, hm12, hd1, hdle, hsum, hm2, hfeb⟩ :=
          monthEstimate_spec year (yday - 1) (by omega) (by omega)
        rw [hc]
        have hm3 : ¬ c.month ≤ 2 := fun h => by have := hm2.mp h; omega
        have hm3' : c.month ≥ 3 := by omega
        have hne : c.month ≠ 2 := by omega
        simp only [daysIn, civilDays, hl, hne, hm3', false_and, and_self, if_true, if_false]
        refine ⟨hy, hm1, hm12, hd1, hdle, ?_⟩
        omega
      · simp only [hgt, if_false]
        obtain ⟨c, hc, hy, hm1, hm12, hd1, hdle, hsum, hm2, hfeb⟩ :=
          monthEstimate_spec year yday h0 (by omega)
        rw [hc]
        have hm3 : c.month ≤ 2 := hm2.mpr (by omega)
        have hm3' : ¬ c.month ≥ 3 := by omega
        simp only [daysIn, civilDays, hl, hm3', and_false, and_true, if_false]
        refine ⟨hy, hm1, hm12, hd1, ?_, ?_⟩
        · by_cases h2 : c.month = 2
          · simp only [h2, if_true]
            have := hfeb h2
            omega
          · simp only [h2, if_false]
            exact hdle
        · omega
  · simp only [hl, Bool.false_eq_true, false_and, if_false] at h1 ⊢
    obtain ⟨c, hc, hy, hm1, hm12, hd1, hdle, hsum, hm2, hfeb⟩ :=
      monthEstimate_spec year yday h0 (by omega)
    rw [hc]
    simp only [daysIn, civilDays, hl, Bool.false_eq_true, and_false, false_and, if_false]
    refine ⟨hy, hm1, hm12, hd1, hdle, ?_⟩
    omega

/-- The calendar date `absDate` gives is a valid date, and `civilDays` leads
back from it to the day count. -/
theorem absDate_spec (days : Int) :
    1 ≤ (absDate days).month ∧ (absDate days).month ≤ 12 ∧ 1 ≤ (absDate days).day ∧
      (absDate days).day ≤ daysIn (absDate days).month (absDate days).year ∧
      civilDays (absDate days).year (absDate days).month (absDate days).day = days ∧
      (-366 ≤ days → 0 ≤ (absDate days).year) ∧
      (days ≤ 3652058 → (absDate days).year ≤ 9999) := by
  obtain ⟨h0, h1, hsum, hlo, hhi⟩ := yearDay_spec days
  obtain ⟨hy, hm1, hm12, hd1, hdle, hciv⟩ := monthDay_spec (yearDay days).1 (yearDay days).2 h0 h1
  unfold absDate
  rw [hy]
  exact ⟨hm1, hm12, hd1, hdle, by rw [hciv, hsum], hlo, hhi⟩

/-! ## Digits -/

theorem utod_digit (k : Nat) (h : k < 10) :
    isDigit (utod k) = true ∧ digitVal (utod k) = (k : Int) ∧ utod k ≠ ',' ∧ utod k ≠ ' ' ∧
      (utod k).toNat ≠ 10 ∧ (utod k).toNat ≠ 13 := by
  interval_cases k <;> decide

theorem getYear_dec4 (y : Nat) (hy : y ≤ 9999) (rest : Str) :
    getYear (dec4 y ++ rest) = some ((y : Int), rest) := by
  have h0 := utod_digit (y / 1000) (by omega)
  have h1 := utod_digit (y / 100 % 10) (by omega)
  have h2 := utod_digit (y / 10 % 10) (by omega)
  have h3 := utod_digit (y % 10) (by omega)
  simp only [dec4, List.cons_append, List.nil_append, getYear, h0.1, h1.1, h2.1, h3.1, h0.2.1,
    h1.2.1, h2.2.1, h3.2.1, and_self, if_true]
  congr 2
  omega

theorem getnum_dec2 (n : Nat) (hn : n < 100) (rest : Str) ( fixed : Bool) :
    getnum (dec2 n ++ rest) fixed = some ((n : Int), rest) := by
  have h0 := utod_digit (n / 10) (by omega)
  have h1 := utod_digit (n % 10) (by omega)
  simp only [dec2, List.cons_append, List.nil_append, getnum, h0.1, h1.1, h0.2.1, h1.2.1, if_true]
  congr 2
  omega

theorem getField_dec2 (n : Nat) (rest : Str) ( fixed : Bool) (lo hi : Int) (hlo : lo ≤ n)
    (hhi : (n : Int) ≤ hi) (hn : n < 100) :
    getField (dec2 n ++ rest) fixed lo hi = some ((n : Int), rest) := by
  unfold getField
  rw [getnum_dec2 n hn]
  simp only []
  rw [if_neg (by omega)]

theorem appendInt_four (y : Int) (h0 : 0 ≤ y) (h1 : y ≤ 9999) : appendInt y 4 = dec4 y.toNat := by
  unfold appendInt dec4
  have hn : y.natAbs = y.toNat := by omega
  have hlt : y.toNat < 10000 := by omega
  simp [hn, hlt, Int.not_lt.mpr h0]

theorem appendInt_two (n : Int) (h0 : 0 ≤ n) (h1 : n < 100) : appendInt n 2 = dec2 n.toNat := by
  unfold appendInt dec2
  have hn : n.natAbs = n.toNat := by omega
  have hlt : n.toNat < 100 := by omega
  simp [hn, hlt, Int.not_lt.mpr h0]

/-! ## Parsing a timestamp -/

theorem parseDate_stamp (y mo d : Nat) (hy : y ≤ 9999) (hmo1 : 1 ≤ mo) (hmo12 : mo ≤ 12)
    (hd : d < 100) (rest : Str) :
    parseDate (dec4 y ++ ('-' :: (dec2 mo ++ ('-' :: (dec2 d ++ rest))))) =
      some ((y : Int), (mo : Int), (d : Int), rest) := by
  unfold parseDate
  rw [getYear_dec4 y hy]
  simp only [skipChar, if_true]
  rw [getField_dec2 mo _ true 1 12 (by omega) (by omega) (by omega)]
  simp only [skipChar, if_true]
  rw [getnum_dec2 d hd]

theorem parseClock_stamp (h mi s : Nat) (hh : h ≤ 23) (hmi : mi ≤ 59) (hs : s ≤ 59) :
    parseClock (dec2 h ++ (':' :: (dec2 mi ++ (':' :: dec2 s)))) =
      some ((h : Int), (mi : Int), (s : Int), 0, []) := by
  unfold parseClock
  rw [getField_dec2 h _ false 0 23 (by omega) (by omega) (by omega)]
  simp only [skipChar, if_true]
  rw [getField_dec2 mi _ true 0 59 (by omega) (by omega) (by omega)]
  simp only [skipChar, if_true]
  have := getField_dec2 s [] true 0 59 (by omega) (by omega) (by omega)
  rw [List.append_nil] at this
  rw [this]
  rfl

theorem skipSpace_dec2 (h : Nat) (hh : h < 100) (rest : Str) :
    skipSpace (' ' :: (dec2 h ++ rest)) = some (dec2 h ++ rest) := by
  have h0 := utod_digit (h / 10) (by omega)
  simp [skipSpace, dec2, List.dropWhile, h0.2.2.2.1]

/-- The parser accepts the text of a valid timestamp and returns the instant
`Date` gives for its fields. -/
theorem ParseInLocation_stamp (loc : Location) (y mo d h mi s : Nat)
    (hv : validStamp y mo d h mi s) :
    ParseInLocation loc (stamp y mo d h mi s) = some (Date loc y mo d h mi s 0) := by
  obtain ⟨hy, hmo1, hmo12, hd1, hdle, hh, hmi, hs⟩ := hv
  have hd100 : d < 100 := by
    have : daysIn mo (y : Int) ≤ 31 := by
      unfold daysIn
      split_ifs
      · omega
      · interval_cases mo <;> simp [daysBefore]
    omega
  unfold ParseInLocation stamp
  rw [parseDate_stamp y mo d hy hmo1 hmo12 hd100]
  simp only []
  rw [skipSpace_dec2 h (by omega)]
  simp only []
  rw [parseClock_stamp h mi s hh hmi hs]
  simp only [ne_eq, not_true_eq_false, if_false, Int.toNat_ofNat]
  rw [if_neg (by omega)]

/-! ## Formatting, and parsing back -/

/-- In the years 0000 to 9999 `Format` gives the text of a valid timestamp. -/
theorem Format_eq_stamp (loc : Location) (t : Time)
    (hlo : -62167219200 ≤ t.sec + (loc.lookup t.sec).offset)
    (hhi : t.sec + (loc.lookup t.sec).offset ≤ 253402300799) :
    ∃ y mo d h mi s : Nat, validStamp y mo d h mi s ∧ Format loc t = stamp y mo d h mi s ∧
      civilDays y mo d * 86400 + ((h : Int) * 3600 + (mi : Int) * 60 + (s : Int)) =
        t.sec + (loc.lookup t.sec).offset + unixToInternal := by
  obtain ⟨A, hA⟩ : ∃ A, t.sec + (loc.lookup t.sec).offset + unixToInternal = A := ⟨_, rfl⟩
  have hA1 : -366 ≤ A / 86400 := by unfold unixToInternal at hA; omega
  have hA2 : A / 86400 ≤ 3652058 := by unfold unixToInternal at hA; omega
  obtain ⟨hm1, hm12, hd1, hdle, hciv, hy0, hy1⟩ := absDate_spec (A / 86400)
  have hy0 := hy0 hA1
  have hy1 := hy1 hA2
  have hd31 : (absDate (A / 86400)).day ≤ 31 := by
    have : daysIn (absDate (A / 86400)).month (absDate (A / 86400)).year ≤ 31 := by
      unfold daysIn
      split_ifs
      · omega
      · generalize (absDate (A / 86400)).month = m at hm1 hm12
        interval_cases m <;> simp [daysBefore]
    omega
  refine ⟨(absDate (A / 86400)).year.toNat, (absDate (A / 86400)).month,
    (absDate (A / 86400)).day.toNat, (A % 86400 / 3600).toNat, (A % 86400 % 3600 / 60).toNat,
    (A % 86400 % 60).toNat, ?_, ?_, ?_⟩
  · refine ⟨by omega, hm1, hm12, by omega, ?_, by omega, by omega, by omega⟩
    rw [Int.toNat_of_nonneg hy0, Int.toNat_of_nonneg (by omega)]
    exact hdle
  · unfold Format stamp
    simp only [hA]
    rw [appendInt_four _ hy0 hy1, appendInt_two _ (by omega) (by omega),
      appendInt_two _ (by omega) (by omega), appendInt_two _ (by omega) (by omega),
      appendInt_two _ (by omega) (by omega), appendInt_two _ (by omega) (by omega)]
    simp [List.append_assoc]
  · rw [Int.toNat_of_nonneg hy0, Int.toNat_of_nonneg (by omega), hciv, ← hA]
    omega

/-- In a zone whose offset never changes, `Date` subtracts that offset. -/
theorem Date_constant_offset (loc : Location) (off : Int)
    (hoff : ∀ s, (loc.lookup s).offset = off) (year : Int) (month : Nat)
    (day hour min sec nsec : Int) :
    Date loc year month day hour min sec nsec =
      ⟨civilDays year month day * 86400 + (hour * 3600 + min * 60 + sec) - unixToInternal - off,
        nsec⟩ := by
  unfold Date
  simp only [hoff]
  split_ifs with h1 h2
  · rfl
  · rfl
  · have : off = 0 := by simpa using h1
    simp [this]

/-- Round trip: in a zone whose offset never changes and in the years 0000 to
9999, parsing the text `Format` gives for an instant yields that instant cut to
whole seconds. -/
theorem ParseInLocation_Format (loc : Location) (off : Int)
    (hoff : ∀ s, (loc.lookup s).offset = off) (t : Time)
    (hlo : -62167219200 ≤ t.sec + off) (hhi : t.sec + off ≤ 253402300799) :
    ParseInLocation loc (Format loc t) = some ⟨t.sec, 0⟩ := by
  obtain ⟨y, mo, d, h, mi, s, hv, hfmt, hsum⟩ :=
    Format_eq_stamp loc t (by rw [hoff]; exact hlo) (by rw [hoff]; exact hhi)
  rw [hfmt, ParseInLocation_stamp loc y mo d h mi s hv, Date_constant_offset loc off hoff, hsum,
    hoff]
  congr 2
  omega

end time

/-! ## The event time of a fix -/

theorem tdiv_small (n : Int) (h0 : -1000 < n) (h1 : n < 1000) : Int.tdiv n 1000000000 = 0 := by
  by_cases hn : 0 ≤ n
  · rw [Int.tdiv_eq_ediv hn (by omega)]; omega
  · have h : n = -(-n) := by omega
    rw [h, Int.neg_tdiv, Int.tdiv_eq_ediv (by omega) (by omega)]; omega

theorem tdiv_thousand (ms : Int) :
    Int.tdiv ms 1000 = if 0 ≤ ms then ms / 1000 else -((-ms) / 1000) := by
  split_ifs with hn
  · rw [Int.tdiv_eq_ediv hn (by omega)]
  · have h : ms = -(-ms) := by omega
    rw [h, Int.neg_tdiv, Int.tdiv_eq_ediv (by omega) (by omega)]; simp

/-- The event time in floor arithmetic: whole seconds rounded down, and the
remainder of the millisecond count as nanoseconds (for a negative count that is
not a whole second, `time.Unix` borrows a second). -/
theorem eventTime_eq (d : Device) :
    eventTime d = ⟨d.Location.TimeStamp / 1000,
      if 0 ≤ d.Location.TimeStamp ∨ d.Location.TimeStamp % 1000 = 0 then
        d.Location.TimeStamp % 1000
      else d.Location.TimeStamp % 1000 + 999999000⟩ := by
  unfold eventTime time.Unix
  generalize d.Location.TimeStamp = ms
  have hmod := Int.tmod_def ms 1000
  have hdiv := tdiv_thousand ms
  have hsmall := tdiv_small (Int.tmod ms 1000)
  generalize Int.tmod ms 1000 = r at *
  generalize Int.tdiv ms 1000 = q at *
  by_cases hn : 0 ≤ ms
  · rw [if_pos hn] at hdiv
    have hr : ¬ (r < 0 ∨ r ≥ 1000000000) := by omega
    rw [if_neg hr, if_pos (Or.inl hn)]
    congr 1
    omega
  · rw [if_neg hn] at hdiv
    have hz := hsmall (by omega) (by omega)
    by_cases hr : r < 0
    · rw [if_pos (Or.inl hr)]
      simp only [hz]
      rw [if_pos (by omega), if_neg (by omega)]
      congr 1 <;> omega
    · rw [if_neg (by omega), if_pos (by omega)]
      congr 1 <;> omega

theorem eventTime_lt (d1 d2 : Device) (h : d1.Location.TimeStamp < d2.Location.TimeStamp) :
    time.Time.lt (eventTime d1) (eventTime d2) := by
  rw [eventTime_eq, eventTime_eq]
  unfold time.Time.lt
  simp only []
  split_ifs <;> omega

theorem eventTime_zero (d : Device) (h : eventTime d = time.Time.zero) :
    d.Location.TimeStamp = -62135596800000 := by
  rw [eventTime_eq] at h
  unfold time.Time.zero at h
  injection h with h1 h2
  split_ifs at h2 <;> omega

theorem not_After_of_lt (t u : time.Time) (h : time.Time.lt t u) :
    t.After u = false ∧ t.Equal u = false := by
  unfold time.Time.lt at h
  unfold time.Time.After time.Time.Equal
  constructor
  · simp only [Bool.or_eq_false_iff, Bool.and_eq_false_iff, decide_eq_false_iff_not]; omega
  · simp only [Bool.and_eq_false_iff, decide_eq_false_iff_not]; omega

/-! ## The backward scan -/

theorem lastLineLoop_spec (pre : Str)
    (hpre : pre = [] ∨ ∃ p c, pre = p ++ [c] ∧ (c.toNat = 10 ∨ c.toNat = 13)) (mid : Str) :
    ∀ suf : Str, suf ≠ [] → (∀ c ∈ mid, c.toNat ≠ 10 ∧ c.toNat ≠ 13) →
      1 ≤ pre.length + mid.length →
      lastLineLoop (pre ++ mid ++ suf) (pre.length + mid.length) suf = .ok (mid ++ suf) := by
  induction mid using List.reverseRecOn with
  | nil =>
    intro suf hsuf _ hlen
    rcases hpre with hp | ⟨p, c, hp, hc⟩
    · subst hp; simp at hlen
    · subst hp
      have hs : 1 ≤ suf.length := by
        cases suf with
        | nil => exact absurd rfl hsuf
        | cons x xs => simp
      have hpos : (p ++ [c]).length + ([] : Str).length = p.length + 1 := by simp
      rw [hpos, lastLineLoop]
      have hget : (p ++ [c] ++ [] ++ suf).get? p.length = some c := by
        have : p ++ [c] ++ [] ++ suf = p ++ c :: suf := by simp
        rw [this, List.get?_eq_getElem?, List.getElem?_append_right (le_refl _)]
        simp
      rw [hget]
      simp only []
      rw [if_pos]
      · simp
      · refine ⟨?_, hc⟩
        simp only [List.length_append, List.length_singleton, List.length_nil]
        push_cast
        omega
  | append_singleton mid x ih =>
    intro suf hsuf hmid hlen
    have hx := hmid x (by simp)
    have hpos : pre.length + (mid ++ [x]).length = (pre.length + mid.length) + 1 := by
      simp; omega
    rw [hpos, lastLineLoop]
    have hget : (pre ++ (mid ++ [x]) ++ suf).get? (pre.length + mid.length) = some x := by
      have : pre ++ (mid ++ [x]) ++ suf = (pre ++ mid) ++ x :: suf := by simp
      rw [this, List.get?_eq_getElem?, List.getElem?_append_right (by simp)]
      simp
    rw [hget]
    simp only []
    rw [if_neg (by omega)]
    by_cases hz : pre.length + mid.length = 0
    · have hp : pre = [] := List.length_eq_zero.mp (by omega)
      have hm : mid = [] := List.length_eq_zero.mp (by omega)
      subst hp hm
      simp
    · rw [if_neg]
      · have := ih (x :: suf) (by simp) (fun c hc => hmid c (by simp [hc])) (by omega)
        have e : pre ++ (mid ++ [x]) ++ suf = pre ++ mid ++ x :: suf := by simp
        rw [e, this]
        simp
      · simp only [List.length_append, List.length_singleton]
        push_cast
        omega

/-- The scan returns the last row with its line feed: the file is
`pre ++ row ++ "\n"`, where `pre` is empty or ends with a line terminator and
`row` holds none. -/
theorem lastLine_spec (pre row : Str)
    (hpre : pre = [] ∨ ∃ p c, pre = p ++ [c] ∧ (c.toNat = 10 ∨ c.toNat = 13))
    (hrow : ∀ c ∈ row, c.toNat ≠ 10 ∧ c.toNat ≠ 13) :
    lastLine (pre ++ row ++ ['\n']) = .ok (row ++ ['\n']) := by
  unfold lastLine
  have hlen : (pre ++ row ++ ['\n']).length = (pre.length + row.length) + 1 := by
    simp only [List.length_append, List.length_singleton]
  rw [hlen, lastLineLoop]
  have hget : (pre ++ row ++ ['\n']).get? (pre.length + row.length) = some '\n' := by
    rw [List.get?_eq_getElem?, List.getElem?_append_right (by simp)]
    simp
  rw [hget]
  simp only []
  rw [if_neg (by rw [hlen]; push_cast; omega)]
  by_cases hz : pre.length + row.length = 0
  · have hp : pre = [] := List.length_eq_zero.mp (by omega)
    have hm : row = [] := List.length_eq_zero.mp (by omega)
    subst hp hm
    simp
  · rw [if_neg (by rw [hlen]; push_cast; omega)]
    exact lastLineLoop_spec pre hpre row ['\n'] (by simp) hrow (by omega)

/-! ## The first field of a line -/

theorem Split_first (f rest : Str) (hf : ∀ c ∈ f, c ≠ ',') :
    ∃ fs, Split (f ++ ',' :: rest) = f :: fs := by
  induction f with
  | nil =>
    simp only [List.nil_append, Split]
    cases Split rest with
    | nil => exact ⟨[[]], by simp⟩
    | cons g gs => exact ⟨g :: gs, by simp⟩
  | cons c f ih =>
    obtain ⟨fs, hfs⟩ := ih (fun x hx => hf x (by simp [hx]))
    have hc : c ≠ ',' := hf c (by simp)
    have e : Split (c :: (f ++ ',' :: rest)) =
        (match Split (f ++ ',' :: rest) with
          | [] => if c = ',' then [[], []] else [[c]]
          | g :: gs => if c = ',' then [] :: g :: gs else (c :: g) :: gs) := rfl
    rw [List.cons_append, e, hfs]
    exact ⟨fs, by simp [hc]⟩

theorem dec2_chars (n : Nat) (hn : n < 100) :
    ∀ c ∈ dec2 n, c ≠ ',' ∧ c.toNat ≠ 10 ∧ c.toNat ≠ 13 := by
  have h0 := time.utod_digit (n / 10) (by omega)
  have h1 := time.utod_digit (n % 10) (by omega)
  intro c hc
  simp only [dec2, List.mem_cons, List.mem_singleton, List.not_mem_nil, or_false] at hc
  rcases hc with h | h <;> subst h
  · exact ⟨h0.2.2.1, h0.2.2.2.2.1, h0.2.2.2.2.2⟩
  · exact ⟨h1.2.2.1, h1.2.2.2.2.1, h1.2.2.2.2.2⟩

theorem dec4_chars (n : Nat) (hn : n ≤ 9999) :
    ∀ c ∈ dec4 n, c ≠ ',' ∧ c.toNat ≠ 10 ∧ c.toNat ≠ 13 := by
  have h0 := time.utod_digit (n / 1000) (by omega)
  have h1 := time.utod_digit (n / 100 % 10) (by omega)
  have h2 := time.utod_digit (n / 10 % 10) (by omega)
  have h3 := time.utod_digit (n % 10) (by omega)
  intro c hc
  simp only [dec4, List.mem_cons, List.mem_singleton, List.not_mem_nil, or_false] at hc
  rcases hc with h | h | h | h <;> subst h
  · exact ⟨h0.2.2.1, h0.2.2.2.2.1, h0.2.2.2.2.2⟩
  · exact ⟨h1.2.2.1, h1.2.2.2.2.1, h1.2.2.2.2.2⟩
  · exact ⟨h2.2.2.1, h2.2.2.2.2.1, h2.2.2.2.2.2⟩
  · exact ⟨h3.2.2.1, h3.2.2.2.2.1, h3.2.2.2.2.2⟩

/-- A timestamp's text holds no comma and no line terminator. -/
theorem stamp_chars (y mo d h mi s : Nat) (hy : y ≤ 9999) (hmo : mo < 100) (hd : d < 100)
    (hh : h < 100) (hmi : mi < 100) (hs : s < 100) :
    ∀ c ∈ stamp y mo d h mi s, c ≠ ',' ∧ c.toNat ≠ 10 ∧ c.toNat ≠ 13 := by
  intro c hc
  simp only [stamp, List.mem_append, List.mem_cons] at hc
  rcases hc with e | e | e | e | e | e | e | e | e | e | e
  · exact dec4_chars y hy c e
  · subst e; decide
  · exact dec2_chars mo hmo c e
  · subst e; decide
  · exact dec2_chars d hd c e
  · subst e; decide
  · exact dec2_chars h hh c e
  · subst e; decide
  · exact dec2_chars mi hmi c e
  · subst e; decide
  · exact dec2_chars s hs c e

theorem validStamp_lt (y mo d h mi s : Nat) (hv : validStamp y mo d h mi s) :
    y ≤ 9999 ∧ mo < 100 ∧ d < 100 ∧ h < 100 ∧ mi < 100 ∧ s < 100 := by
  obtain ⟨hy, hmo1, hmo12, hd1, hdle, hh, hmi, hs⟩ := hv
  have : time.daysIn mo (y : Int) ≤ 31 := by
    unfold time.daysIn
    split_ifs
    · omega
    · interval_cases mo <;> simp [time.daysBefore]
  omega

/-! ## The in-memory duplicate check -/

theorem duplicate_of_le (st : State) (d : Device) (lu : time.Time)
    (hset : st.lastUpdate d.Identifier = some lu) (hle : time.Time.le (eventTime d) lu) :
    duplicate st d = true := by
  unfold duplicate
  simp only [hset, time.Time.After, time.Time.Equal, Bool.true_and]
  unfold time.Time.le at hle
  simp only [Bool.or_eq_true, Bool.and_eq_true, decide_eq_true_eq]
  omega

/-- C2: when `lastUpdate[id]` is set and the fix's time is not after it, one
iteration of the loop for that fix returns the state it was given: no file, no
entry of `lastUpdate` and no open writer changes. -/
theorem stale_fix_discarded (env : Env) (st : State) (d : Device) (lu : time.Time)
    (hset : st.lastUpdate d.Identifier = some lu) (hle : time.Time.le (eventTime d) lu) :
    processDevice env st d = .ok st := by
  unfold processDevice writer
  rw [duplicate_of_le st d lu hset hle]
  simp

/-- C2 at a concrete state: `lastUpdate["A"]` is second 5 and the fix is at
2000 ms. -/
theorem stale_fix_discarded_witness :
    (⟨setKey (fun _ => none) "A".toList ⟨5, 0⟩, fun _ => none, noFiles⟩ : State).lastUpdate
        (fixOf "A".toList "Keys".toList 2000).Identifier = some ⟨5, 0⟩ ∧
      time.Time.le (eventTime (fixOf "A".toList "Keys".toList 2000)) ⟨5, 0⟩ ∧
      processDevice (envUTC []) ⟨setKey (fun _ => none) "A".toList ⟨5, 0⟩, fun _ => none, noFiles⟩
          (fixOf "A".toList "Keys".toList 2000) =
        .ok ⟨setKey (fun _ => none) "A".toList ⟨5, 0⟩, fun _ => none, noFiles⟩ :=
  ⟨by decide, by decide, stale_fix_discarded _ _ _ ⟨5, 0⟩ (by decide) (by decide)⟩

/-! ## The device-name filter -/

/-- C1: a fix older than the log's last row is appended on first encounter.
The log of `Keys` ends with a row at second 5; in a process that has just
started, the fix at 1000 ms (second 1) is written after it, so the times of
the rows are not increasing. -/
theorem resume_appends_older_fix :
    time.Time.lt (eventTime (fixOf "A".toList "Keys".toList 1000)) ⟨5, 0⟩ ∧
    fileAfter (processDevice (envUTC [])
        (start (keysLog
          ("time,latitude,longitude,horizontalAccuracy,street,number,city,country\n".toList ++
            "1970-01-01 00:00:05,1.000000,2.000000,5.000000,Main St,12,Town,NL\n".toList)))
        (fixOf "A".toList "Keys".toList 1000)) keysPath =
      some ("time,latitude,longitude,horizontalAccuracy,street,number,city,country\n".toList ++
        "1970-01-01 00:00:05,1.000000,2.000000,5.000000,Main St,12,Town,NL\n".toList ++
        "1970-01-01 00:00:01,1.000000,2.000000,5.000000,Main St,12,Town,NL\n".toList) := by
  decide

/-- C3: after a row is appended on first encounter of an existing log,
`lastUpdate[id]` holds the time recovered from the log, not the fix's time.
The log ends at second 5. The fix at 5000 ms is discarded as already
recorded and leaves `lastUpdate["A"]` at second 5 with no writer open; the fix
at 7000 ms, later than that, is then appended, and `lastUpdate["A"]` is still
second 5 while the fix's time is second 7. -/
theorem resume_keeps_recovered_time :
    lastUpdateAfter (poll (envUTC [])
        (start (keysLog
          ("time,latitude,longitude,horizontalAccuracy,street,number,city,country\n".toList ++
            "1970-01-01 00:00:05,1.000000,2.000000,5.000000,Main St,12,Town,NL\n".toList)))
        [fixOf "A".toList "Keys".toList 5000]) "A".toList = some ⟨5, 0⟩ ∧
    fileAfter (poll (envUTC [])
        (start (keysLog
          ("time,latitude,longitude,horizontalAccuracy,street,number,city,country\n".toList ++
            "1970-01-01 00:00:05,1.000000,2.000000,5.000000,Main St,12,Town,NL\n".toList)))
        [fixOf "A".toList "Keys".toList 5000, fixOf "A".toList "Keys".toList 7000]) keysPath =
      some ("time,latitude,longitude,horizontalAccuracy,street,number,city,country\n".toList ++
        "1970-01-01 00:00:05,1.000000,2.000000,5.000000,Main St,12,Town,NL\n".toList ++
        "1970-01-01 00:00:07,1.000000,2.000000,5.000000,Main St,12,Town,NL\n".toList) ∧
    lastUpdateAfter (poll (envUTC [])
        (start (keysLog
          ("time,latitude,longitude,horizontalAccuracy,street,number,city,country\n".toList ++
            "1970-01-01 00:00:05,1.000000,2.000000,5.000000,Main St,12,Town,NL\n".toList)))
        [fixOf "A".toList "Keys".toList 5000, fixOf "A".toList "Keys".toList 7000]) "A".toList =
      some ⟨5, 0⟩ ∧
    eventTime (fixOf "A".toList "Keys".toList 7000) = ⟨7, 0⟩ := by
  decide

/-- C4: on an existing log the same fix delivered twice is written twice. The
log ends at second 5 and the process has just started: one delivery of the fix
at 7000 ms appends one row, two deliveries in succession append two. From no
log at all, the fix at 1000 ms polled twice gives one data row. -/
theorem resume_writes_repeated_fix_twice :
    fileAfter (poll (envUTC [])
        (start (keysLog
          ("time,latitude,longitude,horizontalAccuracy,street,number,city,country\n".toList ++
            "1970-01-01 00:00:05,1.000000,2.000000,5.000000,Main St,12,Town,NL\n".toList)))
        [fixOf "A".toList "Keys".toList 7000]) keysPath =
      some ("time,latitude,longitude,horizontalAccuracy,street,number,city,country\n".toList ++
        "1970-01-01 00:00:05,1.000000,2.000000,5.000000,Main St,12,Town,NL\n".toList ++
        "1970-01-01 00:00:07,1.000000,2.000000,5.000000,Main St,12,Town,NL\n".toList) ∧
    fileAfter (poll (envUTC [])
        (start (keysLog
          ("time,latitude,longitude,horizontalAccuracy,street,number,city,country\n".toList ++
            "1970-01-01 00:00:05,1.000000,2.000000,5.000000,Main St,12,Town,NL\n".toList)))
        [fixOf "A".toList "Keys".toList 7000, fixOf "A".toList "Keys".toList 7000]) keysPath =
      some ("time,latitude,longitude,horizontalAccuracy,street,number,city,country\n".toList ++
        "1970-01-01 00:00:05,1.000000,2.000000,5.000000,Main St,12,Town,NL\n".toList ++
        "1970-01-01 00:00:07,1.000000,2.000000,5.000000,Main St,12,Town,NL\n".toList ++
        "1970-01-01 00:00:07,1.000000,2.000000,5.000000,Main St,12,Town,NL\n".toList) ∧
    fileAfter (poll (envUTC []) (start noFiles)
        [fixOf "A".toList "Keys".toList 1000, fixOf "A".toList "Keys".toList 1000]) keysPath =
      some ("time,latitude,longitude,horizontalAccuracy,street,number,city,country\n".toList ++
        "1970-01-01 00:00:01,1.000000,2.000000,5.000000,Main St,12,Town,NL\n".toList) := by
  decide

/-- C6: a fix whose millisecond time is not a multiple of 1000 is written again
after a restart. The fix at 1500 ms, written to a new log, gives a row with time
`1970-01-01 00:00:01`; a process that has just started on that log recovers
second 1 with no nanoseconds, which differs from the fix's time (second 1 and
500 nanoseconds), and appends the same row once more. -/
theorem restart_rewrites_subsecond_fix :
    fileAfter (poll (envUTC []) (start noFiles) [fixOf "A".toList "Keys".toList 1500]) keysPath =
      some ("time,latitude,longitude,horizontalAccuracy,street,number,city,country\n".toList ++
        "1970-01-01 00:00:01,1.000000,2.000000,5.000000,Main St,12,Town,NL\n".toList) ∧
    eventTime (fixOf "A".toList "Keys".toList 1500) = ⟨1, 500⟩ ∧
    lastUpdateAfter (poll (envUTC [])
        (start (keysLog
          ("time,latitude,longitude,horizontalAccuracy,street,number,city,country\n".toList ++
            "1970-01-01 00:00:01,1.000000,2.000000,5.000000,Main St,12,Town,NL\n".toList)))
        [fixOf "A".toList "Keys".toList 1500]) "A".toList = some ⟨1, 0⟩ ∧
    fileAfter (poll (envUTC [])
        (start (keysLog
          ("time,latitude,longitude,horizontalAccuracy,street,number,city,country\n".toList ++
            "1970-01-01 00:00:01,1.000000,2.000000,5.000000,Main St,12,Town,NL\n".toList)))
        [fixOf "A".toList "Keys".toList 1500]) keysPath =
      some ("time,latitude,longitude,horizontalAccuracy,street,number,city,country\n".toList ++
        "1970-01-01 00:00:01,1.000000,2.000000,5.000000,Main St,12,Town,NL\n".toList ++
        "1970-01-01 00:00:01,1.000000,2.000000,5.000000,Main St,12,Town,NL\n".toList) := by
  decide

/-- C7: a first fix whose time is the zero `Time` is not written. With no log
and no entry in `lastUpdate`, the fix at -62135596800000 ms (January 1 of year
1, 00:00:00 UTC) is taken for a duplicate by
`ok && lu.After(ts) || lu.Equal(ts)`: the iteration ends without an error and
no log is created. -/
theorem zero_time_first_fix_dropped :
    eventTime (fixOf "A".toList "Keys".toList (-62135596800000)) = time.Time.zero ∧
    duplicate (start noFiles) (fixOf "A".toList "Keys".toList (-62135596800000)) = true ∧
    fatalOf (processDevice (envUTC []) (start noFiles)
      (fixOf "A".toList "Keys".toList (-62135596800000))) = none ∧
    fileAfter (processDevice (envUTC []) (start noFiles)
      (fixOf "A".toList "Keys".toList (-62135596800000))) keysPath = none := by
  decide

/-- C8: first encounter of a log that holds only the header row ends in
`log.Fatal`: the last line is the header, its first field `time` is not a
timestamp, and the parse error is fatal, so no row is appended. -/
theorem header_only_log_is_fatal :
    lastLine "time,latitude,longitude,horizontalAccuracy,street,number,city,country\n".toList =
      .ok "time,latitude,longitude,horizontalAccuracy,street,number,city,country\n".toList ∧
    time.ParseInLocation time.UTC "time".toList = none ∧
    fatalOf (processDevice (envUTC [])
        (start (keysLog
          "time,latitude,longitude,horizontalAccuracy,street,number,city,country\n".toList))
        (fixOf "A".toList "Keys".toList 7000)) = some Fatal.parse :=
  ⟨by rfl, by decide, by decide⟩

/-! ## Resuming on an existing log -/

theorem resume_stamp (env : Env) (st : State) (d : Device) (pre rest : Str)
    (y mo dd h mi s : Nat) (hv : validStamp y mo dd h mi s)
    (hpre : pre = [] ∨ ∃ p c, pre = p ++ [c] ∧ (c.toNat = 10 ∨ c.toNat = 13))
    (hrest : ∀ c ∈ rest, c.toNat ≠ 10 ∧ c.toNat ≠ 13) :
    resume env st d (pre ++ (stamp y mo dd h mi s ++ ',' :: rest) ++ ['\n']) =
      .ok (⟨setKey st.lastUpdate d.Identifier (time.Date env.loc y mo dd h mi s 0), st.writers,
          st.fs⟩, !(time.Date env.loc y mo dd h mi s 0).Equal (eventTime d)) := by
  obtain ⟨hy, hmo, hd, hh, hmi, hs⟩ := validStamp_lt y mo dd h mi s hv
  have hchars := stamp_chars y mo dd h mi s hy hmo hd hh hmi hs
  have hrow : ∀ c ∈ stamp y mo dd h mi s ++ ',' :: rest, c.toNat ≠ 10 ∧ c.toNat ≠ 13 := by
    intro c hc
    simp only [List.mem_append, List.mem_cons] at hc
    rcases hc with e | e | e
    · exact (hchars c e).2
    · subst e; decide
    · exact hrest c e
  unfold resume
  rw [lastLine_spec pre _ hpre hrow]
  simp only []
  rw [if_pos (by simp)]
  obtain ⟨fs, hfs⟩ := Split_first (stamp y mo dd h mi s) (rest ++ ['\n'])
    (fun c hc => (hchars c hc).1)
  have e : stamp y mo dd h mi s ++ ',' :: rest ++ ['\n'] =
      stamp y mo dd h mi s ++ ',' :: (rest ++ ['\n']) := by simp
  rw [e, hfs]
  simp only []
  rw [time.ParseInLocation_stamp env.loc y mo dd h mi s hv]
  simp [lastUpdateOf, setKey]

/-- C5, amended: the log `pre ++ row ++ "\n"` exists, `pre` is empty or ends
with a line terminator, and `row` is a valid timestamp `YYYY-MM-DD HH:MM:SS`
followed by a comma and by text without line terminators. For an entity with no
open writer and a fix that passes the filter and the in-memory duplicate
check, the iteration ends without an error and `lastUpdate[id]` is the instant
the timestamp denotes in the local zone. -/
theorem resume_recovers_last_time (env : Env) (st : State) (d : Device) (pre rest : Str)
    (y mo dd h mi s : Nat) (hv : validStamp y mo dd h mi s)
    (hpre : pre = [] ∨ ∃ p c, pre = p ++ [c] ∧ (c.toNat = 10 ∨ c.toNat = 13))
    (hrest : ∀ c ∈ rest, c.toNat ≠ 10 ∧ c.toNat ≠ 13)
    (hfile : st.fs (env.join (logFileName d.Name)) =
      some (pre ++ (stamp y mo dd h mi s ++ ',' :: rest) ++ ['\n']))
    (hfirst : st.writers d.Identifier = none)
    (hsel : filtered env d = false) (hdup : duplicate st d = false) :
    ∃ st2, processDevice env st d = .ok st2 ∧
      st2.lastUpdate d.Identifier = some (time.Date env.loc y mo dd h mi s 0) := by
  unfold processDevice writer write
  simp only [hsel, hdup, Bool.false_eq_true, if_false, hfirst, hfile]
  rw [resume_stamp env _ d pre rest y mo dd h mi s hv hpre hrest]
  cases hb : !(time.Date env.loc y mo dd h mi s 0).Equal (eventTime d)
  · exact ⟨_, rfl, by simp [setKey]⟩
  · exact ⟨_, rfl, by simp [flush, setKey]⟩

/-- C5 at a concrete log: the header and one row at second 5, and the fix at
7000 ms in a process that has just started. -/
theorem resume_recovers_last_time_witness :
    validStamp 1970 1 1 0 0 5 ∧
    (start (keysLog
        ("time,latitude,longitude,horizontalAccuracy,street,number,city,country\n".toList ++
          (stamp 1970 1 1 0 0 5 ++ ',' :: "1.000000,2.000000".toList) ++ ['\n']))).fs
        ((envUTC []).join (logFileName (fixOf "A".toList "Keys".toList 7000).Name)) =
      some ("time,latitude,longitude,horizontalAccuracy,street,number,city,country\n".toList ++
        (stamp 1970 1 1 0 0 5 ++ ',' :: "1.000000,2.000000".toList) ++ ['\n']) ∧
    ∃ st2, processDevice (envUTC [])
        (start (keysLog
          ("time,latitude,longitude,horizontalAccuracy,street,number,city,country\n".toList ++
            (stamp 1970 1 1 0 0 5 ++ ',' :: "1.000000,2.000000".toList) ++ ['\n'])))
        (fixOf "A".toList "Keys".toList 7000) = .ok st2 ∧
      st2.lastUpdate (fixOf "A".toList "Keys".toList 7000).Identifier =
        some (time.Date (envUTC []).loc (1970 : Nat) 1 (1 : Nat) (0 : Nat) (0 : Nat) (5 : Nat) 0) :=
  ⟨by decide, by decide,
    resume_recovers_last_time (envUTC []) _ (fixOf "A".toList "Keys".toList 7000)
      "time,latitude,longitude,horizontalAccuracy,street,number,city,country\n".toList
      "1.000000,2.000000".toList 1970 1 1 0 0 5 (by decide)
      (Or.inr ⟨"time,latitude,longitude,horizontalAccuracy,street,number,city,country".toList,
        '\n', by decide, by decide⟩)
      (by decide) (by decide) (by decide) (by decide) (by decide)⟩

/-- C5 as stated fails: (1) the log is the single row `1970-01-01 00:00:05`
and a line feed; the row has no line terminator and its first comma-delimited
field, the whole row, is a timestamp, yet the scan hands the parser the field
with the line feed attached and first encounter ends in `log.Fatal`. (2) On a
log whose last row starts with a timestamp and a comma, the first fix of a
process is at the zero `Time`: it is dropped by the duplicate check before the
log is read, and `lastUpdate` has no entry afterwards. -/
theorem resume_fails_without_comma :
    (∀ c ∈ "1970-01-01 00:00:05".toList, c.toNat ≠ 10 ∧ c.toNat ≠ 13) ∧
    (Split "1970-01-01 00:00:05".toList).head? = some "1970-01-01 00:00:05".toList ∧
    time.ParseInLocation time.UTC "1970-01-01 00:00:05".toList = some ⟨5, 0⟩ ∧
    fatalOf (processDevice (envUTC [])
        (start (keysLog ([] ++ "1970-01-01 00:00:05".toList ++ ['\n'])))
        (fixOf "A".toList "Keys".toList 7000)) = some Fatal.parse ∧
    fatalOf (processDevice (envUTC [])
        (start (keysLog ([] ++ "1970-01-01 00:00:05,1.000000,2.000000".toList ++ ['\n'])))
        (fixOf "A".toList "Keys".toList (-62135596800000))) = none ∧
    lastUpdateAfter (processDevice (envUTC [])
        (start (keysLog ([] ++ "1970-01-01 00:00:05,1.000000,2.000000".toList ++ ['\n'])))
        (fixOf "A".toList "Keys".toList (-62135596800000))) "A".toList = none := by
  decide

/-! ## Two fixes on a new log -/

theorem Format_sec (loc : time.Location) (t u : time.Time) (h : t.sec = u.sec) :
    time.Format loc t = time.Format loc u := by
  unfold time.Format
  rw [h]

theorem utf8Len_cons (c : Char) (s : Str) : utf8Len (c :: s) = c.utf8Size + utf8Len s := by
  simp [utf8Len]

theorem takeBytes_utf8Len (s : Str) : takeBytes (utf8Len s) s = s := by
  induction s with
  | nil => rfl
  | cons c cs ih =>
    rw [utf8Len_cons, takeBytes, if_pos (by omega)]
    have e : c.utf8Size + utf8Len cs - c.utf8Size = utf8Len cs := by omega
    rw [e, ih]

theorem dropBytes_of_le (s : Str) : ∀ n, utf8Len s ≤ n → dropBytes n s = [] := by
  induction s with
  | nil => intro n _; rfl
  | cons c cs ih =>
    intro n hn
    rw [utf8Len_cons] at hn
    have hpos : 0 < c.utf8Size := Char.utf8Size_pos c
    rw [dropBytes, if_neg (by omega), if_pos (by omega)]
    exact ih _ (by omega)

/-- A handle at the end of its file writes at the end of the file. -/
theorem writeAt_end (path content data : Str) :
    writeAt ⟨path, false, utf8Len content⟩ content data = content ++ data := by
  unfold writeAt
  simp only [Bool.false_eq_true, if_false]
  rw [takeBytes_utf8Len, dropBytes_of_le content _ (by omega)]
  simp

theorem writer_first_fix (env : Env) (st : State) (d : Device)
    (hnz : eventTime d ≠ time.Time.zero)
    (hlast : st.lastUpdate d.Identifier = none) (hwr : st.writers d.Identifier = none)
    (habsent : st.fs (env.join (logFileName d.Name)) = none)
    (hstat : env.statErr (env.join (logFileName d.Name)) = false)
    (hcreate : env.createErr (env.join (logFileName d.Name)) = false) :
    writer env st d =
      .ok ⟨setKey st.lastUpdate d.Identifier (eventTime d),
        setKey st.writers d.Identifier
          ⟨env.join (logFileName d.Name), false,
            utf8Len (csvRecord header ++ csvRecord (row env d))⟩,
        setKey (setKey st.fs (env.join (logFileName d.Name)) []) (env.join (logFileName d.Name))
          (csvRecord header ++ csvRecord (row env d))⟩ := by
  have hdup : duplicate st d = false := by
    unfold duplicate
    simp only [hlast, Bool.false_and, Bool.false_or]
    unfold time.Time.Equal
    by_contra hne
    apply hnz
    simp only [Bool.not_eq_false, Bool.and_eq_true, decide_eq_true_eq] at hne
    cases hts : eventTime d with
    | mk sec nsec =>
      rw [hts] at hne
      unfold time.Time.zero at hne ⊢
      simp only at hne
      rw [← hne.1, ← hne.2]
  unfold writer
  rw [hdup]
  unfold write
  simp only [Bool.false_eq_true, if_false, hwr, habsent, hstat, hcreate]
  have hw := writeAt_end (env.join (logFileName d.Name)) []
    (csvRecord header ++ csvRecord (row env d))
  simp only [utf8Len, List.map_nil, List.sum_nil, List.nil_append] at hw
  simp only [flush, setKey, if_true, Option.getD_some, hw, Nat.zero_add]

theorem writer_second_fix (env : Env) (lu : Str → Option time.Time)
    (wr : Str → Option Handle) (fs : Str → Option Str)
    (d1 d2 : Device) (path content : Str)
    (hid : d2.Identifier = d1.Identifier)
    (hlt : time.Time.lt (eventTime d1) (eventTime d2)) :
    fileAfter (writer env
        ⟨setKey lu d1.Identifier (eventTime d1),
          setKey wr d1.Identifier ⟨path, false, utf8Len content⟩,
          setKey fs path content⟩ d2) path =
      some (content ++ csvRecord (row env d2)) := by
  have hdup : duplicate ⟨setKey lu d1.Identifier (eventTime d1),
      setKey wr d1.Identifier ⟨path, false, utf8Len content⟩,
      setKey fs path content⟩ d2 = false := by
    unfold duplicate
    simp only [hid, setKey, if_true, Bool.true_and]
    have := not_After_of_lt _ _ hlt
    rw [this.1, this.2]
    rfl
  unfold writer
  rw [hdup]
  unfold write
  simp only [Bool.false_eq_true, if_false, hid, setKey, if_true]
  simp only [flush, setKey, if_true, Option.getD_some, writeAt_end, fileAfter]

/-- In the years 0000 to 9999 the text `Format` gives shows the local
wall-clock time: the second count of the instant plus the offset in force. -/
theorem wallClock_Format (loc : time.Location) (t : time.Time)
    (hlo : -62167219200 ≤ t.sec + (loc.lookup t.sec).offset)
    (hhi : t.sec + (loc.lookup t.sec).offset ≤ 253402300799) :
    wallClock (time.Format loc t) = some (t.sec + (loc.lookup t.sec).offset) := by
  obtain ⟨y, mo, d, h, mi, s, hv, hfmt, hsum⟩ := time.Format_eq_stamp loc t hlo hhi
  unfold wallClock
  rw [hfmt, time.ParseInLocation_stamp time.UTC y mo d h mi s hv,
    time.Date_constant_offset time.UTC 0 (fun _ => rfl), hsum]
  simp only [Option.map_some', Option.some.injEq]
  omega

/-- C9, amended: two fixes of one entity at `t1 < t2` milliseconds, `t1` not
the zero `Time`, handed to the Writer in that order in a state with no log, no
`lastUpdate` entry and no open writer for the entity, where `os.Stat` and
`os.Create` do not fail on the path of the log. The log then holds the header,
the row of the first fix and the row of the second, in that order. The `time`
column of a row is the event time formatted at one-second resolution: the two
columns are equal when `t1` and `t2` lie in the same second. In any zone, for
local times in the years 0000 to 9999, each column shows the wall-clock time
of its fix, the second count plus the zone offset in force at the fix; when the
same offset is in force at both fixes, the second value is not smaller than the
first and is strictly greater exactly when `t2` lies in a later second than
`t1`. In a zone whose offset never changes the columns also read back through
the parser of the local zone as instants `u1` not after `u2`, strictly before
it exactly when `t2` lies in a later second. -/
theorem two_fixes_two_rows (env : Env) (st : State) (d1 d2 : Device)
    (hid : d2.Identifier = d1.Identifier)
    (hlt : d1.Location.TimeStamp < d2.Location.TimeStamp)
    (hnz : d1.Location.TimeStamp ≠ -62135596800000)
    (hlast : st.lastUpdate d1.Identifier = none) (hwr : st.writers d1.Identifier = none)
    (habsent : st.fs (env.join (logFileName d1.Name)) = none)
    (hstat : env.statErr (env.join (logFileName d1.Name)) = false)
    (hcreate : env.createErr (env.join (logFileName d1.Name)) = false) :
    fileAfter (deliver env st [d1, d2]) (env.join (logFileName d1.Name)) =
        some (csvRecord header ++ csvRecord (row env d1) ++ csvRecord (row env d2)) ∧
      (row env d1).head? = some (time.Format env.loc (eventTime d1)) ∧
      (row env d2).head? = some (time.Format env.loc (eventTime d2)) ∧
      (d1.Location.TimeStamp / 1000 = d2.Location.TimeStamp / 1000 →
        time.Format env.loc (eventTime d1) = time.Format env.loc (eventTime d2)) ∧
      (-62167219200 ≤ d1.Location.TimeStamp / 1000 +
            (env.loc.lookup (d1.Location.TimeStamp / 1000)).offset →
        d1.Location.TimeStamp / 1000 +
            (env.loc.lookup (d1.Location.TimeStamp / 1000)).offset ≤ 253402300799 →
        -62167219200 ≤ d2.Location.TimeStamp / 1000 +
            (env.loc.lookup (d2.Location.TimeStamp / 1000)).offset →
        d2.Location.TimeStamp / 1000 +
            (env.loc.lookup (d2.Location.TimeStamp / 1000)).offset ≤ 253402300799 →
        ∃ w1 w2 : Int,
          wallClock (time.Format env.loc (eventTime d1)) = some w1 ∧
          wallClock (time.Format env.loc (eventTime d2)) = some w2 ∧
          w1 = d1.Location.TimeStamp / 1000 +
            (env.loc.lookup (d1.Location.TimeStamp / 1000)).offset ∧
          w2 = d2.Location.TimeStamp / 1000 +
            (env.loc.lookup (d2.Location.TimeStamp / 1000)).offset ∧
          ((env.loc.lookup (d1.Location.TimeStamp / 1000)).offset =
              (env.loc.lookup (d2.Location.TimeStamp / 1000)).offset →
            w1 ≤ w2 ∧ (w1 < w2 ↔ d1.Location.TimeStamp / 1000 < d2.Location.TimeStamp / 1000))) ∧
      ∀ off : Int, (∀ s, (env.loc.lookup s).offset = off) →
        -62167219200 ≤ d1.Location.TimeStamp / 1000 + off →
        d2.Location.TimeStamp / 1000 + off ≤ 253402300799 →
        ∃ u1 u2 : time.Time,
          time.ParseInLocation env.loc (time.Format env.loc (eventTime d1)) = some u1 ∧
          time.ParseInLocation env.loc (time.Format env.loc (eventTime d2)) = some u2 ∧
          time.Time.le u1 u2 ∧
          (time.Time.lt u1 u2 ↔ d1.Location.TimeStamp / 1000 < d2.Location.TimeStamp / 1000) := by
  have hz : eventTime d1 ≠ time.Time.zero := fun h => hnz (eventTime_zero d1 h)
  have hs1 : (eventTime d1).sec = d1.Location.TimeStamp / 1000 := by rw [eventTime_eq]
  have hs2 : (eventTime d2).sec = d2.Location.TimeStamp / 1000 := by rw [eventTime_eq]
  have hle : d1.Location.TimeStamp / 1000 ≤ d2.Location.TimeStamp / 1000 := by omega
  refine ⟨?_, rfl, rfl, ?_, ?_, ?_⟩
  · simp only [deliver]
    rw [writer_first_fix env st d1 hz hlast hwr habsent hstat hcreate]
    simp only []
    have h2 := writer_second_fix env st.lastUpdate st.writers
      (setKey st.fs (env.join (logFileName d1.Name)) []) d1 d2 (env.join (logFileName d1.Name))
      (csvRecord header ++ csvRecord (row env d1)) hid (eventTime_lt d1 d2 hlt)
    cases hw : writer env
        ⟨setKey st.lastUpdate d1.Identifier (eventTime d1),
          setKey st.writers d1.Identifier
            ⟨env.join (logFileName d1.Name), false,
              utf8Len (csvRecord header ++ csvRecord (row env d1))⟩,
          setKey (setKey st.fs (env.join (logFileName d1.Name)) []) (env.join (logFileName d1.Name))
            (csvRecord header ++ csvRecord (row env d1))⟩ d2 with
    | error e => rw [hw] at h2; simp [fileAfter] at h2
    | ok st2 => rw [hw] at h2; simpa [fileAfter] using h2
  · intro h
    exact Format_sec env.loc _ _ (by rw [hs1, hs2, h])
  · intro h1lo h1hi h2lo h2hi
    refine ⟨_, _, wallClock_Format env.loc (eventTime d1) (by rw [hs1]; exact h1lo)
      (by rw [hs1]; exact h1hi), wallClock_Format env.loc (eventTime d2) (by rw [hs2]; exact h2lo)
      (by rw [hs2]; exact h2hi), by rw [hs1], by rw [hs2], ?_⟩
    intro hoff
    rw [hs1, hs2, hoff]
    omega
  · intro off hoff hlo hhi
    refine ⟨⟨(eventTime d1).sec, 0⟩, ⟨(eventTime d2).sec, 0⟩,
      time.ParseInLocation_Format env.loc off hoff _ (by rw [hs1]; exact hlo) (by rw [hs1]; omega),
      time.ParseInLocation_Format env.loc off hoff _ (by rw [hs2]; omega) (by rw [hs2]; exact hhi),
      ?_, ?_⟩
    · unfold time.Time.le
      simp only [hs1, hs2]
      omega
    · unfold time.Time.lt
      simp only [hs1, hs2]
      omega

/-- C9 at `t1 = 1000`, `t2 = 2000` in UTC, in a process that has just started
on an empty data directory: the log holds the header and the rows at
`1970-01-01 00:00:01` and `1970-01-01 00:00:02`, which show the wall-clock
seconds 1 and 2 and read back as second 1 and second 2. -/
theorem two_fixes_two_rows_witness :
    fileAfter (deliver (envUTC []) (start noFiles)
        [fixOf "A".toList "Keys".toList 1000, fixOf "A".toList "Keys".toList 2000]) keysPath =
      some ("time,latitude,longitude,horizontalAccuracy,street,number,city,country\n".toList ++
        "1970-01-01 00:00:01,1.000000,2.000000,5.000000,Main St,12,Town,NL\n".toList ++
        "1970-01-01 00:00:02,1.000000,2.000000,5.000000,Main St,12,Town,NL\n".toList) ∧
    (∃ w1 w2 : Int,
      wallClock "1970-01-01 00:00:01".toList = some w1 ∧
      wallClock "1970-01-01 00:00:02".toList = some w2 ∧
      w1 = (1000 : Int) / 1000 + 0 ∧ w2 = (2000 : Int) / 1000 + 0 ∧
      ((0 : Int) = 0 → w1 ≤ w2 ∧ (w1 < w2 ↔ (1000 : Int) / 1000 < 2000 / 1000))) ∧
    ∃ u1 u2 : time.Time,
      time.ParseInLocation time.UTC "1970-01-01 00:00:01".toList = some u1 ∧
      time.ParseInLocation time.UTC "1970-01-01 00:00:02".toList = some u2 ∧
      time.Time.le u1 u2 ∧ (time.Time.lt u1 u2 ↔ (1000 : Int) / 1000 < 2000 / 1000) :=
  ⟨(two_fixes_two_rows (envUTC []) (start noFiles) (fixOf "A".toList "Keys".toList 1000)
      (fixOf "A".toList "Keys".toList 2000) rfl (by decide) (by decide) rfl rfl rfl rfl rfl).1,
    (two_fixes_two_rows (envUTC []) (start noFiles) (fixOf "A".toList "Keys".toList 1000)
      (fixOf "A".toList "Keys".toList 2000) rfl (by decide) (by decide) rfl rfl rfl rfl
      rfl).2.2.2.2.1 (by decide) (by decide) (by decide) (by decide),
    (two_fixes_two_rows (envUTC []) (start noFiles) (fixOf "A".toList "Keys".toList 1000)
      (fixOf "A".toList "Keys".toList 2000) rfl (by decide) (by decide) rfl rfl rfl rfl
      rfl).2.2.2.2.2 0 (fun _ => rfl) (by decide) (by decide)⟩

/-- C9 as stated fails. (1) `t1 = 1000`, `t2 = 1001`: both fixes are written
and the `time` column of the second row equals that of the first,
`1970-01-01 00:00:01`. (2) In a zone that falls back by an hour at second 1000,
`t1 = 999000` and `t2 = 1000000`, on either side of the change: the first row
reads `02:16:39` and the second `01:16:40`, a smaller wall-clock time.
(3) `t1 = 253402300799000`, `t2 = 253402300800000`: the second column,
`10000-01-01 00:00:00`, is not accepted by the parser of the layout.
(4) `t1 = -62135596800000`, the zero `Time`, and `t2 = 1000`: the first fix is
dropped and the log holds one data row. (5) The display name `a/b` in a data
directory with no subdirectory: `os.Create` fails and the run ends in
`log.Fatal` with no log. -/
theorem same_second_rows_share_time :
    fileAfter (deliver (envUTC []) (start noFiles)
        [fixOf "A".toList "Keys".toList 1000, fixOf "A".toList "Keys".toList 1001]) keysPath =
      some ("time,latitude,longitude,horizontalAccuracy,street,number,city,country\n".toList ++
        "1970-01-01 00:00:01,1.000000,2.000000,5.000000,Main St,12,Town,NL\n".toList ++
        "1970-01-01 00:00:01,1.000000,2.000000,5.000000,Main St,12,Town,NL\n".toList) ∧
    fileAfter (deliver envFallBack (start noFiles)
        [fixOf "A".toList "Keys".toList 999000, fixOf "A".toList "Keys".toList 1000000])
        keysPath =
      some ("time,latitude,longitude,horizontalAccuracy,street,number,city,country\n".toList ++
        "1970-01-01 02:16:39,1.000000,2.000000,5.000000,Main St,12,Town,NL\n".toList ++
        "1970-01-01 01:16:40,1.000000,2.000000,5.000000,Main St,12,Town,NL\n".toList) ∧
    wallClock "1970-01-01 02:16:39".toList = some 8199 ∧
    wallClock "1970-01-01 01:16:40".toList = some 4600 ∧
    time.ParseInLocation fallBack "1970-01-01 02:16:39".toList = some ⟨4599, 0⟩ ∧
    time.ParseInLocation fallBack "1970-01-01 01:16:40".toList = some ⟨1000, 0⟩ ∧
    (row (envUTC []) (fixOf "A".toList "Keys".toList 253402300799000)).head? =
      some "9999-12-31 23:59:59".toList ∧
    (row (envUTC []) (fixOf "A".toList "Keys".toList 253402300800000)).head? =
      some "10000-01-01 00:00:00".toList ∧
    time.ParseInLocation time.UTC "10000-01-01 00:00:00".toList = none ∧
    fileAfter (deliver (envUTC []) (start noFiles)
        [fixOf "A".toList "Keys".toList (-62135596800000), fixOf "A".toList "Keys".toList 1000])
        keysPath =
      some ("time,latitude,longitude,horizontalAccuracy,street,number,city,country\n".toList ++
        "1970-01-01 00:00:01,1.000000,2.000000,5.000000,Main St,12,Town,NL\n".toList) ∧
    (start noFiles).fs (envFlat.join (logFileName "a/b".toList)) = none ∧
    fatalOf (deliver envFlat (start noFiles)
        [fixOf "A".toList "a/b".toList 1000, fixOf "A".toList "a/b".toList 2000]) =
      some Fatal.create := by
  decide

end AirTag
